import Mathlib

/-!
Shallow embedding of the agromanagement core (`agromanager.py`): the
`CropCalendar` crop-cycle state machine, the `TimedEventsDispatcher` and
`StateEventsDispatcher` event dispatchers, and the `AgroManager` campaign
scheduler.  Python `datetime.date` values are modelled as their proleptic
Gregorian ordinals (`Int`, with `date(1,1,1)` having ordinal 1, so
`date(2001,3,1) = 730545`, `date(2002,1,1) = 730851`); `timedelta(days=n)`
addition is ordinal addition.  Signal emission via the synchronous bus is
modelled by returning the list of emitted signals from each call.
-/

/-- The crop_end_type trait: Enum(["maturity", "harvest", "earliest"]). -/
inductive CropEndType where
  | maturity
  | harvest
  | earliest
deriving DecidableEq, Repr

/-- The signals a CropCalendar can emit: signals.crop_start with the day, and
signals.crop_finish with the day and the finish reason string. -/
inductive CropSignal where
  | crop_start (day : Int)
  | crop_finish (day : Int) (finish : String)
deriving DecidableEq, Repr

/-- State and parameters of a `CropCalendar` instance: the crop-cycle
characteristics set in `__init__` plus the runtime counters `duration`
(Int(0)) and `in_crop_cycle` (Bool(False)).  `crop_id`, the kiosk and the
logger play no role in the dynamics and are omitted. -/
structure CropCalendar where
  crop_start_date : Int
  crop_end_date : Int
  crop_end_type : CropEndType
  max_duration : Int
  duration : Int := 0
  in_crop_cycle : Bool := false
deriving DecidableEq, Repr

/-- First phase of `CropCalendar.__call__`: `if self.in_crop_cycle:
self.duration += 1`. -/
def CropCalendar.step_duration (c : CropCalendar) : CropCalendar :=
  if c.in_crop_cycle then { c with duration := c.duration + 1 } else c

/-- Second phase of `CropCalendar.__call__`: `if day == self.crop_start_date`,
reset `duration` to 0, set `in_crop_cycle`, and send `signals.crop_start`. -/
def CropCalendar.step_start (c : CropCalendar) (day : Int) :
    CropCalendar × List CropSignal :=
  if day = c.crop_start_date then
    ({ c with duration := 0, in_crop_cycle := true }, [CropSignal.crop_start day])
  else
    (c, [])

/-- Finish determination of `CropCalendar.__call__`: `finish_type = None`;
if `crop_end_type in ["harvest", "earliest"]` and `day >= crop_end_date`
then `finish_type = "harvest"`; then, unconditionally, if
`duration >= max_duration` then `finish_type = "max_duration"`. -/
def CropCalendar.finish_type (c : CropCalendar) (day : Int) : Option String :=
  let ft : Option String :=
    if (c.crop_end_type = CropEndType.harvest ∨ c.crop_end_type = CropEndType.earliest)
        ∧ c.crop_end_date ≤ day then
      some "harvest"
    else
      none
  if c.max_duration ≤ c.duration then some "max_duration" else ft

/-- `CropCalendar.__call__(day, drv)`: duration bookkeeping, crop start,
finish determination, and emission of `signals.crop_finish` when a finish
reason was set (the unused driving-variables argument `drv` is omitted). -/
def CropCalendar.call (c : CropCalendar) (day : Int) :
    CropCalendar × List CropSignal :=
  let c1 := c.step_duration
  let r := c1.step_start day
  match (r.1).finish_type day with
  | none => r
  | some ft =>
      ({ r.1 with in_crop_cycle := false },
        r.2 ++ [CropSignal.crop_finish day ft])

/-- `CropCalendar._on_CROP_FINISH`: a crop_finish event observed back from
the bus idempotently clears `in_crop_cycle`. -/
def CropCalendar.on_CROP_FINISH (c : CropCalendar) : CropCalendar :=
  { c with in_crop_cycle := false }

/-- `CropCalendar.get_end_date`: the given end date for harvest/earliest,
else `crop_start_date + timedelta(days=max_duration)`. -/
def CropCalendar.get_end_date (c : CropCalendar) : Int :=
  if c.crop_end_type = CropEndType.harvest ∨ c.crop_end_type = CropEndType.earliest then
    c.crop_end_date
  else
    c.crop_start_date + c.max_duration

/-- `CropCalendar.get_start_date`: always `crop_start_date`. -/
def CropCalendar.get_start_date (c : CropCalendar) : Int :=
  c.crop_start_date

/-- Run a CropCalendar over a sequence of daily ticks, concatenating the
emitted signals. -/
def CropCalendar.run (c : CropCalendar) : List Int → CropCalendar × List CropSignal
  | [] => (c, [])
  | d :: ds =>
      let r := c.call d
      let s := (r.1).run ds
      (s.1, r.2 ++ s.2)

/-- Recognizer for crop_start signals. -/
def CropSignal.isStart : CropSignal → Bool
  | .crop_start _ => true
  | .crop_finish _ _ => false

/-- Recognizer for crop_finish signals. -/
def CropSignal.isFinish : CropSignal → Bool
  | .crop_start _ => false
  | .crop_finish _ _ => true

/-- Number of crop_start signals in a signal list. -/
def countStart (l : List CropSignal) : Nat :=
  (l.filter CropSignal.isStart).length

/-- Number of crop_finish signals in a signal list. -/
def countFinish (l : List CropSignal) : Nat :=
  (l.filter CropSignal.isFinish).length

/-- Signals observable at the AgroManager level: signals forwarded from the
crop calendar, the configured signal of a timed-event table (carrying the
payload of the firing entry), the configured signal of a state-event table
(carrying the payload of the firing entry), and signals.terminate.  Payloads
are identified by a Nat tag. -/
inductive MSig where
  | cropSig (s : CropSignal)
  | timedEvent (payload : Nat)
  | stateEvent (payload : Nat)
  | terminate
deriving DecidableEq, Repr

/-- A `TimedEventsDispatcher`: its events_table, each entry a single day
mapped to a keyword payload (payloads identified by Nat tags).  The kiosk,
logger, name, comment and the resolved signal object play no role in the
dynamics and are omitted. -/
structure TimedEventsDispatcher where
  events_table : List (Int × Nat)
deriving DecidableEq, Repr

/-- The `days_with_events` Counter built in `TimedEventsDispatcher.__init__`:
the multiset of keys of the entries of events_table (each entry is a
single-day mapping, so one key per entry). -/
def TimedEventsDispatcher.days_with_events (t : TimedEventsDispatcher) : List Int :=
  t.events_table.map Prod.fst

/-- Error cases of `TimedEventsDispatcher.__init__`: an undefined signal
name, or days carrying more than one event (the error lists those days). -/
inductive TEInitError where
  | signal_undefined
  | multi_days (days : List Int)
deriving DecidableEq, Repr

/-- `TimedEventsDispatcher.__init__`: fail if the configured signal name is
not defined in the signals module (signal resolution itself is external, so
it enters as the boolean `signal_defined`); then build the days_with_events
Counter and fail, listing every day whose count exceeds one, if any day
holds two or more events.  The Counter's key iteration order is not
modelled: `dedup` yields each distinct day once, which fixes the reported
set of days but not their order. -/
def TimedEventsDispatcher.init (signal_defined : Bool)
    (events_table : List (Int × Nat)) : Except TEInitError TimedEventsDispatcher :=
  if ¬ signal_defined then
    Except.error TEInitError.signal_undefined
  else
    let days := events_table.map Prod.fst
    let multi_days := days.dedup.filter (fun d => 1 < days.count d)
    if multi_days ≠ [] then
      Except.error (TEInitError.multi_days multi_days)
    else
      Except.ok ⟨events_table⟩

/-- `TimedEventsDispatcher.__call__(day)`: return unless `day` is a key of
days_with_events; otherwise emit the configured signal once for every entry
whose day equals `day`, with that entry's payload. -/
def TimedEventsDispatcher.call (t : TimedEventsDispatcher) (day : Int) : List MSig :=
  if day ∈ t.days_with_events then
    (t.events_table.filter (fun e => e.1 = day)).map (fun e => MSig.timedEvent e.2)
  else
    []

/-- `TimedEventsDispatcher.get_end_date`: `max(self.days_with_events)`.
Python's builtin max raises ValueError on an empty sequence; that case is
modelled as `none`. -/
def TimedEventsDispatcher.get_end_date (t : TimedEventsDispatcher) : Option Int :=
  t.days_with_events.max?

/-- The zero_condition trait: Enum(['rising', 'falling', 'either']). -/
inductive ZeroCondition where
  | rising
  | falling
  | either
deriving DecidableEq, Repr

/-- Python's two-argument cmp against 0, used as `cmp(current_state - state, 0)`:
-1, 0 or +1. -/
def cmp0 (x : Int) : Int :=
  if x < 0 then -1 else if x = 0 then 0 else 1

/-- A `StateEventsDispatcher`: the watched variable name (event_state), the
zero_condition mode, the events_table (each entry a single threshold mapped
to a keyword payload, payloads identified by Nat tags), and the per-entry
previous_signs slots (`None` until first evaluated). -/
structure StateEventsDispatcher where
  event_state : String
  zero_condition : ZeroCondition
  events_table : List (Int × Nat)
  previous_signs : List (Option Int)
deriving DecidableEq, Repr

/-- `StateEventsDispatcher._zero_condition_rising`: compute
`sign = cmp(current_state - state, 0)`; if the previous sign is still None
just return the sign; otherwise emit the configured signal with the entry's
payload iff the previous sign is -1 and the new sign is in [0, 1]; the new
sign is returned (stored) in every case. -/
def StateEventsDispatcher.zero_condition_rising (current_state state : Int)
    (payload : Nat) (zero_condition_sign : Option Int) : Int × List MSig :=
  let sign := cmp0 (current_state - state)
  match zero_condition_sign with
  | none => (sign, [])
  | some z =>
      if z = -1 ∧ (sign = 0 ∨ sign = 1) then
        (sign, [MSig.stateEvent payload])
      else
        (sign, [])

/-- `StateEventsDispatcher._zero_condition_falling`: emit iff the previous
sign is +1 and the new sign is in [-1, 0]; the new sign is always stored. -/
def StateEventsDispatcher.zero_condition_falling (current_state state : Int)
    (payload : Nat) (zero_condition_sign : Option Int) : Int × List MSig :=
  let sign := cmp0 (current_state - state)
  match zero_condition_sign with
  | none => (sign, [])
  | some z =>
      if z = 1 ∧ (sign = -1 ∨ sign = 0) then
        (sign, [MSig.stateEvent payload])
      else
        (sign, [])

/-- `StateEventsDispatcher._zero_condition_either`: emit iff either the
falling or the rising transition condition holds; the new sign is always
stored. -/
def StateEventsDispatcher.zero_condition_either (current_state state : Int)
    (payload : Nat) (zero_condition_sign : Option Int) : Int × List MSig :=
  let sign := cmp0 (current_state - state)
  match zero_condition_sign with
  | none => (sign, [])
  | some z =>
      if (z = 1 ∧ (sign = -1 ∨ sign = 0)) ∨ (z = -1 ∧ (sign = 0 ∨ sign = 1)) then
        (sign, [MSig.stateEvent payload])
      else
        (sign, [])

/-- The `_evaluate_state` function reference assigned in
`StateEventsDispatcher.__init__` according to zero_condition, as a dispatch
on the mode. -/
def StateEventsDispatcher.evaluate_state (zc : ZeroCondition)
    (current_state state : Int) (payload : Nat) (zero_condition_sign : Option Int) :
    Int × List MSig :=
  match zc with
  | .rising => StateEventsDispatcher.zero_condition_rising current_state state payload zero_condition_sign
  | .falling => StateEventsDispatcher.zero_condition_falling current_state state payload zero_condition_sign
  | .either => StateEventsDispatcher.zero_condition_either current_state state payload zero_condition_sign

/-- `StateEventsDispatcher.__call__(day)`: if the watched variable
event_state is absent from the kiosk, log a warning and return, leaving the
dispatcher unchanged and emitting nothing; otherwise read the current value,
evaluate every (entry, previous sign) pair with the assigned evaluation
function, store the new signs as previous_signs and emit the collected
signals.  The kiosk is the externally mutated registry, modelled as a
name-to-value map passed to the call; the `day` argument is unused in the
source body and is kept for the interface. -/
def StateEventsDispatcher.call (d : StateEventsDispatcher) (_day : Int)
    (kiosk : String → Option Int) : StateEventsDispatcher × List MSig :=
  match kiosk d.event_state with
  | none => (d, [])
  | some current_state =>
      let rs := (d.events_table.zip d.previous_signs).map
        (fun ep =>
          StateEventsDispatcher.evaluate_state d.zero_condition current_state
            ep.1.1 ep.1.2 ep.2)
      ({ d with previous_signs := rs.map (fun r => some r.1) },
        (rs.map Prod.snd).flatten)

/-- Run `_zero_condition_rising` for one entry over a series of observed
values of the watched variable, threading the stored sign and counting the
emitted signals. -/
def runRising (threshold : Int) (payload : Nat) :
    Option Int → List Int → Option Int × Nat
  | prev, [] => (prev, 0)
  | prev, v :: vs =>
      let r := StateEventsDispatcher.zero_condition_rising v threshold payload prev
      let rest := runRising threshold payload (some r.1) vs
      (rest.1, r.2.length + rest.2)

/-- One campaign of the agromanagement definition list, as consumed by
`AgroManager.initializeDefs`: its start date and the three optional bundle
parts (CropCalendar, TimedEvents, StateEvents).  A fully fallow campaign
(a `None` campaign body) has all three absent. -/
structure CampaignDef where
  campaign_start : Int
  cc : Option CropCalendar
  te : Option (List TimedEventsDispatcher)
  se : Option (List StateEventsDispatcher)

/-- The state held by an `AgroManager`: the campaign start dates with the
trailing `None` sentinel appended by `initialize`, the campaign cursor
`_icampaign`, and the three per-campaign bundle queues whose front elements
are popped when a campaign is retired. -/
structure AgroManager where
  campaign_start_dates : List (Option Int)
  icampaign : Nat
  crop_calendars : List (Option CropCalendar)
  timed_event_dispatchers : List (Option (List TimedEventsDispatcher))
  state_event_dispatchers : List (Option (List StateEventsDispatcher))

/-- The running date check of `AgroManager._check_campaign_date`, folded
over the campaign start dates with the `_tmp_date` helper variable (initially
`None`).  Exactly as in the source, `_tmp_date` is only ever assigned on the
first date, never afterwards, so every later date is compared against the
first one. -/
def AgroManager.check_campaign_dates : Option Int → List Int → Except String Unit
  | _, [] => Except.ok ()
  | none, d :: ds => AgroManager.check_campaign_dates (some d) ds
  | some t, d :: ds =>
      if d ≤ t then
        Except.error "Definition of agricultural campaigns is not sequential in definition of agromanagement"
      else
        AgroManager.check_campaign_dates (some t) ds

/-- The source method `AgroManager.initialize` (renamed here to
`initializeDefs`): check the campaign start dates with
`_check_campaign_date`, append the `None` sentinel to the date list and
build the three bundle queues, one (possibly absent) bundle part per
campaign.  The per-bundle `validate` calls against the campaign windows are
not needed by the claims settled here and are omitted. -/
def AgroManager.initializeDefs (defs : List CampaignDef) : Except String AgroManager :=
  match AgroManager.check_campaign_dates none (defs.map (fun d => d.campaign_start)) with
  | Except.error e => Except.error e
  | Except.ok _ =>
      Except.ok
        { campaign_start_dates := defs.map (fun d => some d.campaign_start) ++ [none]
          icampaign := 0
          crop_calendars := defs.map (fun d => d.cc)
          timed_event_dispatchers := defs.map (fun d => d.te)
          state_event_dispatchers := defs.map (fun d => d.se) }

/-- `AgroManager.start_date`: the first campaign start date. -/
def AgroManager.start_date (s : AgroManager) : Option Int :=
  (s.campaign_start_dates.headD none)

/-- The list comprehension `[t.get_end_date() for t in teds]` over all
tables: collects every table's end date, failing (as Python's `max` does on
an empty sequence) if any table is empty. -/
def collectEndDates : List TimedEventsDispatcher → Option (List Int)
  | [] => some []
  | t :: ts =>
      match t.get_end_date, collectEndDates ts with
      | some d, some ds => some (d :: ds)
      | _, _ => none

/-- `AgroManager.end_date`: collect the end date of every present
CropCalendar and the end date of every table of every present
TimedEventsDispatcher list, fail when nothing is collected (an entirely
empty agromanagement definition), otherwise fold `max` over the collected
dates starting from `date(1,1,1)` (ordinal 1).  Python's `max` raises
ValueError when a table is empty; that surfaces as the first error case. -/
def AgroManager.end_date (s : AgroManager) : Except String Int :=
  let cc_dates : List Int :=
    s.crop_calendars.filterMap (fun o => o.map CropCalendar.get_end_date)
  let tables : List TimedEventsDispatcher :=
    (s.timed_event_dispatchers.filterMap id).flatten
  match collectEndDates tables with
  | none => Except.error "ValueError: max arg is an empty sequence"
  | some te_dates =>
      if cc_dates.isEmpty ∧ te_dates.isEmpty then
        Except.error "Empty agromanagement definition: no campaigns with crop calendars or timed events provided!"
      else
        let e0 : Int := 1
        let e1 := match cc_dates.max? with
          | none => e0
          | some m => max m e0
        let e2 := match te_dates.max? with
          | none => e1
          | some m => max m e1
        Except.ok e2

/-- The campaign-boundary phase of `AgroManager.__call__(day, drv)`: if
`day` equals the upcoming campaign start date
`campaign_start_dates[_icampaign+1]`, advance the cursor and pop the front
bundle of each of the three queues.  The trailing sentinel entry is `none`
and never equals `some day`. -/
def AgroManager.swap_campaign (s : AgroManager) (day : Int) : AgroManager :=
  if s.campaign_start_dates.getD (s.icampaign + 1) none = some day then
    { s with
        icampaign := s.icampaign + 1
        crop_calendars := s.crop_calendars.drop 1
        timed_event_dispatchers := s.timed_event_dispatchers.drop 1
        state_event_dispatchers := s.state_event_dispatchers.drop 1 }
  else s

/-- `if self.crop_calendars[0] is not None: self.crop_calendars[0](day, drv)`:
tick the front crop calendar when present, replacing it with its advanced
state. -/
def tickCropCalendars (cs : List (Option CropCalendar)) (day : Int) :
    List (Option CropCalendar) × List MSig :=
  match cs with
  | some cc :: rest =>
      let r := cc.call day
      (some r.1 :: rest, r.2.map MSig.cropSig)
  | cs => (cs, [])

/-- `if self.timed_event_dispatchers[0] is not None: for ev_dsp in ...:
ev_dsp(day)`: tick every timed-event dispatcher of the front bundle. -/
def tickTimedHead (ts : List (Option (List TimedEventsDispatcher))) (day : Int) :
    List MSig :=
  match ts.headD none with
  | some teds => (teds.map (fun t => t.call day)).flatten
  | none => []

/-- `if self.state_event_dispatchers[0] is not None: for ev_dsp in ...:
ev_dsp(day)`: tick every state-event dispatcher of the front bundle,
replacing the bundle with the advanced dispatchers. -/
def tickStateHead (ss : List (Option (List StateEventsDispatcher))) (day : Int)
    (kiosk : String → Option Int) :
    List (Option (List StateEventsDispatcher)) × List MSig :=
  match ss with
  | some seds :: rest =>
      let rs := seds.map (fun d => d.call day kiosk)
      (some (rs.map Prod.fst) :: rest, (rs.map Prod.snd).flatten)
  | ss => (ss, [])

/-- The handler phase of `AgroManager.__call__`: crop calendar first, then
timed events, then state events, all addressing index 0 of their queues. -/
def AgroManager.run_handlers (s : AgroManager) (day : Int) (kiosk : String → Option Int) :
    AgroManager × List MSig :=
  let ccr := tickCropCalendars s.crop_calendars day
  let teSigs := tickTimedHead s.timed_event_dispatchers day
  let ser := tickStateHead s.state_event_dispatchers day kiosk
  ({ s with crop_calendars := ccr.1, state_event_dispatchers := ser.1 },
    ccr.2 ++ teSigs ++ ser.2)

/-- `AgroManager.__call__(day, drv)`: the campaign-boundary swap followed
by the handler phase on the now-current front bundle.  Python raises
IndexError when a queue is indexed empty; in the model an empty queue
leaves the state unchanged and emits nothing (the reachable-state theorems
show the queues are never empty). -/
def AgroManager.call (s : AgroManager) (day : Int) (kiosk : String → Option Int) :
    AgroManager × List MSig :=
  (s.swap_campaign day).run_handlers day kiosk

/-- `AgroManager._on_CROP_FINISH`: send signals.terminate if the campaign
queue is exhausted.  In the source this handler is defined but never
connected to the crop_finish signal (`AgroManager` makes no
`_connect_signal` call); it is modelled here as it reads, to show that even
when invoked it never emits. -/
def AgroManager.on_CROP_FINISH (s : AgroManager) : List MSig :=
  if s.crop_calendars = [] then [MSig.terminate] else []

/-- Run an AgroManager over a sequence of daily ticks against a fixed
kiosk, concatenating the emitted signals. -/
def AgroManager.run (s : AgroManager) (kiosk : String → Option Int) :
    List Int → AgroManager × List MSig
  | [] => (s, [])
  | d :: ds =>
      let r := s.call d kiosk
      let t := (r.1).run kiosk ds
      (t.1, r.2 ++ t.2)

/-- Well-formedness of an AgroManager with `n` campaigns, as established by
`initialize`: the date list is `n` real dates followed by the `None`
sentinel, the cursor is below `n`, and each bundle queue holds exactly the
not-yet-retired campaigns. -/
def AgroManager.wf (s : AgroManager) (n : Nat) : Prop :=
  (∃ ds : List Int, ds.length = n ∧ s.campaign_start_dates = ds.map some ++ [none]) ∧
  s.icampaign < n ∧
  s.crop_calendars.length = n - s.icampaign ∧
  s.timed_event_dispatchers.length = n - s.icampaign ∧
  s.state_event_dispatchers.length = n - s.icampaign

/-- A concrete harvest-type crop calendar (start day 0, end day 3, ample
max_duration) used to instantiate theorems with hypotheses. -/
def exampleHarvestCalendar : CropCalendar :=
  { crop_start_date := 0
    crop_end_date := 3
    crop_end_type := CropEndType.harvest
    max_duration := 100 }

/-- A concrete maturity-type crop calendar with max_duration 0, witnessing
the same-day start/finish edge case. -/
def exampleZeroDurationCalendar : CropCalendar :=
  { crop_start_date := 5
    crop_end_date := 0
    crop_end_type := CropEndType.maturity
    max_duration := 0 }

/-- A concrete harvest-type crop calendar mid-cycle on the tick where both
the date-based and the duration-based finish conditions hold. -/
def exampleOverrideCalendar : CropCalendar :=
  { crop_start_date := 0
    crop_end_date := 3
    crop_end_type := CropEndType.harvest
    max_duration := 2
    duration := 1
    in_crop_cycle := true }

/-- The agromanagement example from the specification: one campaign
starting 2001-03-01 (ordinal 730545) with a maturity-type crop calendar of
max_duration 150 (its crop_end_date is None in the source and unused for
maturity; 0 here), followed by a fully fallow campaign starting 2002-01-01
(ordinal 730851). -/
def exampleAgro : AgroManager :=
  { campaign_start_dates := [some 730545, some 730851, none]
    icampaign := 0
    crop_calendars :=
      [some { crop_start_date := 730545
              crop_end_date := 0
              crop_end_type := CropEndType.maturity
              max_duration := 150 }, none]
    timed_event_dispatchers := [none, none]
    state_event_dispatchers := [none, none] }

/-- A concrete rising-mode state-event dispatcher watching the soil
moisture variable with a single threshold entry, previous sign not yet
recorded. -/
def exampleStateDispatcher : StateEventsDispatcher :=
  { event_state := "SM"
    zero_condition := ZeroCondition.rising
    events_table := [(0, 7)]
    previous_signs := [none] }

/-! Helper lemmas about `CropCalendar.call` and `CropCalendar.run`. -/

theorem CropCalendar.call_crop_start_date (c : CropCalendar) (d : Int) :
    (c.call d).1.crop_start_date = c.crop_start_date := by
  simp only [CropCalendar.call, CropCalendar.step_duration, CropCalendar.step_start]
  split <;> split <;> split <;> rfl

theorem countStart_append (a b : List CropSignal) :
    countStart (a ++ b) = countStart a + countStart b := by
  simp [countStart, List.filter_append]

theorem countFinish_append (a b : List CropSignal) :
    countFinish (a ++ b) = countFinish a + countFinish b := by
  simp [countFinish, List.filter_append]

theorem countStart_call (c : CropCalendar) (d : Int) :
    countStart (c.call d).2 = if d = c.crop_start_date then 1 else 0 := by
  simp only [CropCalendar.call, CropCalendar.step_duration, CropCalendar.step_start]
  split <;> split <;> split <;>
    simp_all [countStart, CropSignal.isStart, List.filter]

theorem countFinish_call_le (c : CropCalendar) (d : Int) :
    countFinish (c.call d).2 ≤ 1 := by
  simp only [CropCalendar.call, CropCalendar.step_duration, CropCalendar.step_start]
  split <;> split <;> split <;>
    simp_all [countFinish, CropSignal.isFinish, List.filter]

theorem CropCalendar.run_crop_start_date (c : CropCalendar) (ds : List Int) :
    (c.run ds).1.crop_start_date = c.crop_start_date := by
  induction ds generalizing c with
  | nil => rfl
  | cons d ds ih =>
      simp only [CropCalendar.run]
      rw [ih, CropCalendar.call_crop_start_date]

theorem CropCalendar.run_append (c : CropCalendar) (as bs : List Int) :
    c.run (as ++ bs) =
      (((c.run as).1.run bs).1, (c.run as).2 ++ ((c.run as).1.run bs).2) := by
  induction as generalizing c with
  | nil => simp [CropCalendar.run]
  | cons a as ih =>
      simp only [List.cons_append, CropCalendar.run, List.append_eq, ih, List.append_assoc]

theorem countStart_run (c : CropCalendar) (ds : List Int) :
    countStart (c.run ds).2 =
      (ds.filter (fun d => d = c.crop_start_date)).length := by
  induction ds generalizing c with
  | nil => rfl
  | cons d ds ih =>
      simp only [CropCalendar.run, countStart_append, countStart_call, ih,
        CropCalendar.call_crop_start_date, List.filter_cons]
      split
      · simp_all
        omega
      · simp_all

theorem filter_eq_length_le_one {l : List Int} {v : Int}
    (h : l.Pairwise (· < ·)) :
    (l.filter (fun d => d = v)).length ≤ 1 := by
  induction l with
  | nil => simp
  | cons a l ih =>
      rcases List.pairwise_cons.mp h with ⟨ha, hl⟩
      by_cases hv : a = v
      · subst hv
        have : l.filter (fun d => d = a) = [] := by
          refine List.filter_eq_nil_iff.mpr ?_
          intro x hx
          have := ha x hx
          simp
          omega
        simp [List.filter_cons, this]
      · simpa [List.filter_cons, hv] using ih hl

theorem countStart_run_le_one (c : CropCalendar) (ds : List Int)
    (h : List.Chain' (· < ·) ds) :
    countStart (c.run ds).2 ≤ 1 := by
  rw [countStart_run]
  exact filter_eq_length_le_one (List.chain'_iff_pairwise.mp h)

theorem two_starts_le_countStart (l : List CropSignal) (i j : Nat)
    (hij : i < j) (hj : j < l.length)
    (hi : (l.getD i (CropSignal.crop_start 0)).isStart = true)
    (hjs : (l.getD j (CropSignal.crop_start 0)).isStart = true) :
    2 ≤ countStart l := by
  induction l generalizing i j with
  | nil => simp at hj
  | cons a l ih =>
      cases j with
      | zero => omega
      | succ m =>
          have hml : m < l.length := by
            simpa using hj
          have hjs' : (l.getD m (CropSignal.crop_start 0)).isStart = true := by
            simpa [List.getD_cons_succ] using hjs
          cases i with
          | zero =>
              have ha : a.isStart = true := by
                simpa [List.getD_cons_zero] using hi
              have hmem : l.getD m (CropSignal.crop_start 0) ∈ l := by
                rw [List.getD_eq_getElem l _ hml]
                exact List.getElem_mem hml
              have h1 : 1 ≤ countStart l := by
                have : l.getD m (CropSignal.crop_start 0) ∈ l.filter CropSignal.isStart :=
                  List.mem_filter.mpr ⟨hmem, hjs'⟩
                have := List.length_pos.mpr (List.ne_nil_of_mem this)
                simpa [countStart] using this
              simp only [countStart, List.filter_cons, ha]
              simp only [countStart] at h1
              simp
              omega
          | succ k =>
              have hik : k < m := by omega
              have hi' : (l.getD k (CropSignal.crop_start 0)).isStart = true := by
                simpa [List.getD_cons_succ] using hi
              have h2 := ih k m hik hml hi' hjs'
              have : countStart l ≤ countStart (a :: l) := by
                simp only [countStart, List.filter_cons]
                split <;> simp
              omega


/-- C1: for every CropCalendar and every activation (the tick where the day
equals crop_start_date through the first tick where a finish reason is set),
running the calendar over strictly increasing days emits exactly one
crop-start signal and exactly one crop-finish signal; moreover no strictly
increasing tick sequence ever yields two crop-start signals without a
crop-finish signal strictly between them. -/
theorem C1_one_start_one_finish_per_activation
    (c : CropCalendar) (rest : List Int) (n : Nat)
    (hmono : List.Chain' (· < ·) (c.crop_start_date :: rest))
    (hpre : countFinish ((c.run ((c.crop_start_date :: rest).take n)).2) = 0)
    (hfin : 1 ≤ countFinish ((c.run ((c.crop_start_date :: rest).take (n + 1))).2)) :
    countStart ((c.run ((c.crop_start_date :: rest).take (n + 1))).2) = 1 ∧
    countFinish ((c.run ((c.crop_start_date :: rest).take (n + 1))).2) = 1 ∧
    (∀ days : List Int, List.Chain' (· < ·) days →
      ∀ i j : Nat, i < j → j < ((c.run days).2).length →
        (((c.run days).2).getD i (CropSignal.crop_start 0)).isStart = true →
        (((c.run days).2).getD j (CropSignal.crop_start 0)).isStart = true →
        ∃ k : Nat, i < k ∧ k < j ∧
          (((c.run days).2).getD k (CropSignal.crop_start 0)).isFinish = true) := by
  have hpair := List.chain'_iff_pairwise.mp hmono
  have hrest : ∀ x ∈ rest, c.crop_start_date < x := (List.pairwise_cons.mp hpair).1
  refine ⟨?_, ?_, ?_⟩
  · rw [List.take_succ_cons, countStart_run]
    have hnil : (rest.take n).filter (fun d => d = c.crop_start_date) = [] := by
      refine List.filter_eq_nil_iff.mpr ?_
      intro x hx
      have := hrest x (List.take_subset n rest hx)
      simp only [decide_eq_true_eq]
      omega
    simp [List.filter_cons, hnil]
  · rw [List.take_succ, CropCalendar.run_append, countFinish_append, hpre] at hfin ⊢
    cases hopt : (c.crop_start_date :: rest)[n]? with
    | none =>
        rw [hopt] at hfin
        simp [CropCalendar.run, countFinish] at hfin
    | some d =>
        rw [hopt] at hfin
        have hle := countFinish_call_le
          ((c.run ((c.crop_start_date :: rest).take n)).1) d
        simp only [Option.toList_some, CropCalendar.run] at hfin ⊢
        simp only [List.append_nil] at hfin ⊢
        omega
  · intro days hch i j hij hjlen hsi hsj
    exfalso
    have h2 := two_starts_le_countStart _ i j hij hjlen hsi hsj
    have h1 := countStart_run_le_one c days hch
    omega

/-- Witness for C1: the harvest-type example calendar, ticked on days
0, 1, 2, 3 from its start day 0, emits exactly one crop-start and, at the
tick reaching its end day 3, exactly one crop-finish. -/
theorem C1_witness :
    countStart ((exampleHarvestCalendar.run
      ((exampleHarvestCalendar.crop_start_date :: [1, 2, 3]).take 4)).2) = 1 ∧
    countFinish ((exampleHarvestCalendar.run
      ((exampleHarvestCalendar.crop_start_date :: [1, 2, 3]).take 4)).2) = 1 :=
  ⟨(C1_one_start_one_finish_per_activation exampleHarvestCalendar [1, 2, 3] 3
      (by norm_num [exampleHarvestCalendar, List.chain'_cons]) (by decide) (by decide)).1,
   (C1_one_start_one_finish_per_activation exampleHarvestCalendar [1, 2, 3] 3
      (by norm_num [exampleHarvestCalendar, List.chain'_cons]) (by decide) (by decide)).2.1⟩

/-- C3: in CropCalendar advance the duration check runs unconditionally
after the date check, so on a tick where the state after the duration and
start phases satisfies both the harvest/earliest date condition and the
max_duration condition, the finish reason is "max_duration" and the emitted
crop-finish signal carries it; and with max_duration = 0 the tick at
day = crop_start_date emits the crop-start followed immediately by a
crop-finish with reason "max_duration". -/
theorem C3_max_duration_overrides_harvest :
    (∀ (c : CropCalendar) (day : Int),
      ((c.step_duration.step_start day).1.crop_end_type = CropEndType.harvest ∨
        (c.step_duration.step_start day).1.crop_end_type = CropEndType.earliest) →
      (c.step_duration.step_start day).1.crop_end_date ≤ day →
      (c.step_duration.step_start day).1.max_duration ≤
          (c.step_duration.step_start day).1.duration →
      (c.step_duration.step_start day).1.finish_type day = some "max_duration" ∧
      (c.call day).2 =
        (c.step_duration.step_start day).2 ++ [CropSignal.crop_finish day "max_duration"]) ∧
    (∀ (c : CropCalendar) (day : Int),
      c.max_duration = 0 → day = c.crop_start_date →
      (c.call day).2 = [CropSignal.crop_start day, CropSignal.crop_finish day "max_duration"]) := by
  constructor
  · intro c day hty hdate hdur
    have hft : ((c.step_duration.step_start day).1).finish_type day = some "max_duration" := by
      simp [CropCalendar.finish_type, hdur]
    refine ⟨hft, ?_⟩
    simp only [CropCalendar.call, hft]
  · intro c day hmax hday
    subst hday
    cases hc : c.in_crop_cycle <;>
      simp [CropCalendar.call, CropCalendar.step_duration, CropCalendar.step_start,
        CropCalendar.finish_type, hmax, hc]

/-- Witness for C3: the mid-cycle override calendar at day 10 satisfies
both finish conditions and emits a max_duration finish, and the
zero-duration calendar finishes on its own start day. -/
theorem C3_witness :
    (exampleOverrideCalendar.call 10).2 =
      (exampleOverrideCalendar.step_duration.step_start 10).2 ++
        [CropSignal.crop_finish 10 "max_duration"] ∧
    (exampleZeroDurationCalendar.call 5).2 =
      [CropSignal.crop_start 5, CropSignal.crop_finish 5 "max_duration"] :=
  ⟨(C3_max_duration_overrides_harvest.1 exampleOverrideCalendar 10
      (by decide) (by decide) (by decide)).2,
   C3_max_duration_overrides_harvest.2 exampleZeroDurationCalendar 5 rfl rfl⟩

/-! Helper lemmas about `_zero_condition_rising` runs. -/

theorem cmp0_neg {x : Int} (h : x < 0) : cmp0 x = -1 := by
  simp [cmp0, h]

theorem cmp0_nonneg {x : Int} (h : 0 ≤ x) : 0 ≤ cmp0 x := by
  unfold cmp0
  split_ifs <;> omega

theorem cmp0_nonneg_cases {x : Int} (h : 0 ≤ x) : cmp0 x = 0 ∨ cmp0 x = 1 := by
  unfold cmp0
  split_ifs <;> omega

theorem zcr_none (cur t : Int) (pl : Nat) :
    StateEventsDispatcher.zero_condition_rising cur t pl none = (cmp0 (cur - t), []) := rfl

theorem zcr_some (cur t : Int) (pl : Nat) (z : Int) :
    StateEventsDispatcher.zero_condition_rising cur t pl (some z) =
      (cmp0 (cur - t),
        if z = -1 ∧ (cmp0 (cur - t) = 0 ∨ cmp0 (cur - t) = 1) then
          [MSig.stateEvent pl]
        else []) := by
  simp only [StateEventsDispatcher.zero_condition_rising]
  split <;> rfl

theorem runRising_cons (t : Int) (pl : Nat) (prev : Option Int) (v : Int) (vs : List Int) :
    runRising t pl prev (v :: vs) =
      ((runRising t pl (some (StateEventsDispatcher.zero_condition_rising v t pl prev).1) vs).1,
        (StateEventsDispatcher.zero_condition_rising v t pl prev).2.length +
          (runRising t pl (some (StateEventsDispatcher.zero_condition_rising v t pl prev).1) vs).2) :=
  rfl

theorem runRising_below_neg (t : Int) (pl : Nat) (vs : List Int)
    (h : ∀ v ∈ vs, v < t) :
    runRising t pl (some (-1)) vs = (some (-1), 0) := by
  induction vs with
  | nil => rfl
  | cons v vs ih =>
      have hv : v - t < 0 := by
        have := h v (List.mem_cons_self v vs)
        omega
      have hcond : ¬ ((-1 : Int) = -1 ∧ (cmp0 (v - t) = 0 ∨ cmp0 (v - t) = 1)) := by
        rw [cmp0_neg hv]
        rintro ⟨-, h2⟩
        omega
      have hrec := ih (fun w hw => h w (List.mem_cons_of_mem _ hw))
      rw [runRising_cons, zcr_some, if_neg hcond]
      simp [cmp0_neg hv, hrec]

theorem runRising_nonneg (t : Int) (pl : Nat) (vs : List Int) (p : Int)
    (hp : 0 ≤ p) (h : ∀ v ∈ vs, t ≤ v) :
    (runRising t pl (some p) vs).2 = 0 := by
  induction vs generalizing p with
  | nil => rfl
  | cons v vs ih =>
      have hv : 0 ≤ v - t := by
        have := h v (List.mem_cons_self v vs)
        omega
      have hcond : ¬ (p = -1 ∧ (cmp0 (v - t) = 0 ∨ cmp0 (v - t) = 1)) := by
        rintro ⟨h1, -⟩
        omega
      rw [runRising_cons, zcr_some, if_neg hcond]
      simpa using ih (cmp0 (v - t)) (cmp0_nonneg hv)
        (fun w hw => h w (List.mem_cons_of_mem _ hw))

theorem runRising_cross_from_neg (t : Int) (pl : Nat) (vs : List Int)
    (hch : List.Chain' (· ≤ ·) vs)
    (hex : ∃ v ∈ vs, t ≤ v) :
    (runRising t pl (some (-1)) vs).2 = 1 := by
  induction vs with
  | nil => simp at hex
  | cons v vs ih =>
      by_cases hv : t ≤ v
      · have hall : ∀ w ∈ vs, t ≤ w := by
          intro w hw
          have hvw : v ≤ w :=
            (List.pairwise_cons.mp (List.chain'_iff_pairwise.mp hch)).1 w hw
          omega
        have hd : 0 ≤ v - t := by omega
        have hcond : (-1 : Int) = -1 ∧ (cmp0 (v - t) = 0 ∨ cmp0 (v - t) = 1) :=
          ⟨rfl, cmp0_nonneg_cases hd⟩
        rw [runRising_cons, zcr_some, if_pos hcond]
        simpa using runRising_nonneg t pl vs (cmp0 (v - t)) (cmp0_nonneg hd) hall
      · have hcond : ¬ ((-1 : Int) = -1 ∧ (cmp0 (v - t) = 0 ∨ cmp0 (v - t) = 1)) := by
          rw [cmp0_neg (by omega : v - t < 0)]
          rintro ⟨-, h2⟩
          omega
        rw [runRising_cons, zcr_some, if_neg hcond]
        have hrec : (runRising t pl (some (-1)) vs).2 = 1 := by
          refine ih hch.tail ?_
          rcases hex with ⟨w, hw, hwt⟩
          rcases List.mem_cons.mp hw with rfl | hw'
          · omega
          · exact ⟨w, hw', hwt⟩
        simpa [cmp0_neg (by omega : v - t < 0)] using hrec

/-- C5: for a rising-mode state-event dispatcher, the first observation of
an entry records the sign of current minus threshold and emits nothing; a
later observation emits the configured signal with the entry's payload iff
the stored sign is -1 and the new sign is 0 or +1, and stores the new sign
either way; at the dispatcher level every entry is processed this way and
the new signs replace previous_signs.  Consequently a monotonically
increasing series that starts below the threshold and reaches it fires
exactly once, and a series entirely below or entirely at-or-above the
threshold never fires. -/
theorem C5_rising_zero_crossing :
    (∀ (cur t : Int) (pl : Nat),
      StateEventsDispatcher.zero_condition_rising cur t pl none = (cmp0 (cur - t), [])) ∧
    (∀ (cur t : Int) (pl : Nat) (z : Int),
      StateEventsDispatcher.zero_condition_rising cur t pl (some z) =
        (cmp0 (cur - t),
          if z = -1 ∧ (cmp0 (cur - t) = 0 ∨ cmp0 (cur - t) = 1) then
            [MSig.stateEvent pl]
          else [])) ∧
    (∀ (d : StateEventsDispatcher) (day : Int) (kiosk : String → Option Int) (cur : Int),
      d.zero_condition = ZeroCondition.rising →
      kiosk d.event_state = some cur →
      d.call day kiosk =
        ({ d with previous_signs := ((d.events_table.zip d.previous_signs).map (fun ep => some ((StateEventsDispatcher.zero_condition_rising cur ep.1.1 ep.1.2 ep.2).1))) },
          ((d.events_table.zip d.previous_signs).map
              (fun ep =>
                (StateEventsDispatcher.zero_condition_rising cur ep.1.1 ep.1.2 ep.2).2)).flatten)) ∧
    (∀ (t : Int) (pl : Nat) (v : Int) (vs : List Int),
      List.Chain' (· ≤ ·) (v :: vs) → v < t → (∃ w ∈ v :: vs, t ≤ w) →
      (runRising t pl none (v :: vs)).2 = 1) ∧
    (∀ (t : Int) (pl : Nat) (vs : List Int),
      (∀ v ∈ vs, v < t) → (runRising t pl none vs).2 = 0) ∧
    (∀ (t : Int) (pl : Nat) (vs : List Int),
      (∀ v ∈ vs, t ≤ v) → (runRising t pl none vs).2 = 0) := by
  refine ⟨fun cur t pl => rfl, fun cur t pl z => zcr_some cur t pl z, ?_, ?_, ?_, ?_⟩
  · intro d day kiosk cur hzc hk
    simp only [StateEventsDispatcher.call, hk, StateEventsDispatcher.evaluate_state, hzc,
      List.map_map]
    rfl
  · intro t pl v vs hch hv hex
    rw [runRising_cons, zcr_none]
    have hs : cmp0 (v - t) = -1 := cmp0_neg (by omega)
    have hrec : (runRising t pl (some (-1)) vs).2 = 1 := by
      refine runRising_cross_from_neg t pl vs hch.tail ?_
      rcases hex with ⟨w, hw, hwt⟩
      rcases List.mem_cons.mp hw with rfl | hw'
      · omega
      · exact ⟨w, hw', hwt⟩
    simpa [hs] using hrec
  · intro t pl vs h
    cases vs with
    | nil => rfl
    | cons v vs =>
        rw [runRising_cons, zcr_none]
        have hs : cmp0 (v - t) = -1 := by
          refine cmp0_neg ?_
          have := h v (List.mem_cons_self v vs)
          omega
        have hrec := runRising_below_neg t pl vs
          (fun w hw => h w (List.mem_cons_of_mem _ hw))
        simp [hs, hrec]
  · intro t pl vs h
    cases vs with
    | nil => rfl
    | cons v vs =>
        rw [runRising_cons, zcr_none]
        have hd : 0 ≤ v - t := by
          have := h v (List.mem_cons_self v vs)
          omega
        simpa using runRising_nonneg t pl vs (cmp0 (v - t)) (cmp0_nonneg hd)
          (fun w hw => h w (List.mem_cons_of_mem _ hw))

/-- Witness for C5: with threshold 0, the increasing series -2, -1, 1, 5
fires exactly once. -/
theorem C5_witness : (runRising 0 7 none [-2, -1, 1, 5]).2 = 1 :=
  C5_rising_zero_crossing.2.2.2.1 0 7 (-2) [-1, 1, 5]
    (by norm_num [List.chain'_cons]) (by norm_num) ⟨5, by norm_num, by norm_num⟩

/-- C9: when the watched variable is absent from the kiosk, a
StateEventsDispatcher tick logs and returns: no exception, no emitted
signal, and the dispatcher state (in particular every previous-sign slot)
is exactly what it was before. -/
theorem C9_absent_variable_skips_tick
    (d : StateEventsDispatcher) (day : Int) (kiosk : String → Option Int)
    (h : kiosk d.event_state = none) :
    d.call day kiosk = (d, []) := by
  simp [StateEventsDispatcher.call, h]

/-- Witness for C9: the example dispatcher against an empty kiosk is left
unchanged and emits nothing. -/
theorem C9_witness :
    exampleStateDispatcher.call 0 (fun _ => none) = (exampleStateDispatcher, []) :=
  C9_absent_variable_skips_tick exampleStateDispatcher 0 (fun _ => none) rfl

/-- C7: with the configured signal name defined, constructing a
TimedEventsDispatcher succeeds iff no day appears in two or more entries of
its table, and when it fails the reported day list contains exactly the
days with two or more entries. -/
theorem C7_timed_events_duplicate_days (tbl : List (Int × Nat)) :
    ((TimedEventsDispatcher.init true tbl).isOk = true ↔
      ∀ d : Int, (tbl.map Prod.fst).count d ≤ 1) ∧
    (∀ ds : List Int,
      TimedEventsDispatcher.init true tbl = Except.error (TEInitError.multi_days ds) →
      ∀ d : Int, d ∈ ds ↔ 2 ≤ (tbl.map Prod.fst).count d) := by
  have hmem_filter : ∀ d : Int,
      d ∈ (tbl.map Prod.fst).dedup.filter (fun d => 1 < (tbl.map Prod.fst).count d) ↔
        2 ≤ (tbl.map Prod.fst).count d := by
    intro d
    rw [List.mem_filter]
    constructor
    · rintro ⟨-, h2⟩
      simpa using h2
    · intro h2
      refine ⟨List.mem_dedup.mpr ?_, by simpa using h2⟩
      have : 0 < (tbl.map Prod.fst).count d := by omega
      exact List.count_pos_iff.mp this
  by_cases hm :
      (tbl.map Prod.fst).dedup.filter (fun d => 1 < (tbl.map Prod.fst).count d) = []
  · have hinit : TimedEventsDispatcher.init true tbl = Except.ok ⟨tbl⟩ := by
      simp [TimedEventsDispatcher.init, hm]
    constructor
    · rw [hinit]
      refine iff_of_true rfl ?_
      intro d
      by_contra hd
      have : d ∈ (tbl.map Prod.fst).dedup.filter (fun d => 1 < (tbl.map Prod.fst).count d) :=
        (hmem_filter d).mpr (by omega)
      simp [hm] at this
    · intro ds hds
      rw [hinit] at hds
      exact absurd hds (by simp)
  · have hinit : TimedEventsDispatcher.init true tbl =
        Except.error (TEInitError.multi_days
          ((tbl.map Prod.fst).dedup.filter (fun d => 1 < (tbl.map Prod.fst).count d))) := by
      simp [TimedEventsDispatcher.init, hm]
    constructor
    · rw [hinit]
      refine iff_of_false (by simp [Except.isOk, Except.toBool]) ?_
      intro hall
      rcases List.exists_mem_of_ne_nil _ hm with ⟨d, hd⟩
      have := (hmem_filter d).mp hd
      have := hall d
      omega
    · intro ds hds
      rw [hinit] at hds
      simp only [Except.error.injEq, TEInitError.multi_days.injEq] at hds
      subst hds
      exact hmem_filter

/-- Witness for C7: the table with entries on days 1, 2, 1 fails with the
duplicate day 1 reported, and indeed day 1 carries two entries. -/
theorem C7_witness :
    (1 : Int) ∈ ([1] : List Int) ↔
      2 ≤ (([(1, 0), (2, 0), (1, 1)] : List (Int × Nat)).map Prod.fst).count 1 :=
  (C7_timed_events_duplicate_days [(1, 0), (2, 0), (1, 1)]).2 [1] rfl 1

/-- C6 (code evidence): initialize accepts the campaign start dates
0, 2, 1 even though they are not strictly increasing, because
_check_campaign_date compares every later date only against the first
campaign date: the _tmp_date helper is assigned on the first date and never
updated afterwards. -/
theorem C6_nonchronological_dates_accepted :
    (AgroManager.initializeDefs
      [{ campaign_start := 0, cc := none, te := none, se := none },
       { campaign_start := 2, cc := none, te := none, se := none },
       { campaign_start := 1, cc := none, te := none, se := none }]).isOk = true ∧
    AgroManager.check_campaign_dates none [0, 2, 1] = Except.ok () ∧
    ¬ List.Chain' (· < ·) ([0, 2, 1] : List Int) := by
  refine ⟨rfl, rfl, ?_⟩
  norm_num [List.chain'_cons]

/-- Specialization of the Batteries max? characterization to Int. -/
theorem int_max?_eq_some_iff {l : List Int} {a : Int} :
    l.max? = some a ↔ a ∈ l ∧ ∀ b ∈ l, b ≤ a :=
  @List.max?_eq_some_iff Int a _ _ ⟨@fun _ _ h1 h2 => le_antisymm h1 h2⟩
    (fun _ => le_refl _) max_choice (fun _ _ _ => max_le_iff) l

theorem collectEndDates_of_nonempty (tables : List TimedEventsDispatcher)
    (h : ∀ t ∈ tables, t.events_table ≠ []) :
    ∃ te_dates : List Int, collectEndDates tables = some te_dates ∧
      (te_dates = [] ↔ tables = []) := by
  induction tables with
  | nil => exact ⟨[], rfl, by simp⟩
  | cons t ts ih =>
      have ht := h t (List.mem_cons_self t ts)
      have hmax : ∃ m, t.get_end_date = some m := by
        cases hm : t.get_end_date with
        | some m => exact ⟨m, rfl⟩
        | none =>
            exfalso
            apply ht
            simp only [TimedEventsDispatcher.get_end_date,
              TimedEventsDispatcher.days_with_events] at hm
            have := List.max?_eq_none_iff.mp hm
            simpa using this
      rcases hmax with ⟨m, hm⟩
      rcases ih (fun u hu => h u (List.mem_cons_of_mem _ hu)) with ⟨ds, hds, -⟩
      exact ⟨m :: ds, by simp [collectEndDates, hm, hds], by simp⟩

/-- C4: for an initialized scheduler whose timed-event tables are nonempty,
end_date fails iff no campaign carries a crop calendar and no campaign
carries a timed-event table; and whenever the collected contributions (one
end date per present crop calendar, one maximum day per present table) have
maximum M, a valid date ordinal, end_date returns exactly M.  On the spec
example — a maturity campaign starting 2001-03-01 with max_duration 150
followed by a fully fallow campaign starting 2002-01-01 — end_date is
2001-03-01 + 150 days, not 2002-01-01. -/
theorem C4_end_date_is_max_of_contributions (s : AgroManager)
    (hne : ∀ teds ∈ s.timed_event_dispatchers.filterMap id, ∀ t ∈ teds, t.events_table ≠ []) :
    ((∃ e, s.end_date = Except.error e) ↔
      (s.crop_calendars.filterMap id = [] ∧
        (s.timed_event_dispatchers.filterMap id).flatten = [])) ∧
    (∀ (te_dates : List Int) (M : Int),
      collectEndDates ((s.timed_event_dispatchers.filterMap id).flatten) = some te_dates →
      (s.crop_calendars.filterMap (fun o => o.map CropCalendar.get_end_date) ++ te_dates).max? = some M →
      1 ≤ M →
      s.end_date = Except.ok M) ∧
    exampleAgro.end_date = Except.ok (730545 + 150) ∧
    (730545 + 150 : Int) ≠ 730851 := by
  have hne' : ∀ t ∈ (s.timed_event_dispatchers.filterMap id).flatten, t.events_table ≠ [] := by
    intro t ht
    rcases List.mem_flatten.mp ht with ⟨teds, hteds, htm⟩
    exact hne teds hteds t htm
  obtain ⟨tds, htds, hiff⟩ := collectEndDates_of_nonempty _ hne'
  have hcc_iff :
      s.crop_calendars.filterMap (fun o => o.map CropCalendar.get_end_date) = [] ↔
        s.crop_calendars.filterMap id = [] := by
    simp [List.filterMap_eq_nil_iff, Option.map_eq_none']
  refine ⟨?_, ?_, ?_, by norm_num⟩
  · simp only [AgroManager.end_date, htds]
    by_cases hc :
        (s.crop_calendars.filterMap (fun o => o.map CropCalendar.get_end_date)).isEmpty = true ∧
          tds.isEmpty = true
    · rw [if_pos hc]
      refine iff_of_true ⟨_, rfl⟩ ?_
      exact ⟨hcc_iff.mp (List.isEmpty_iff.mp hc.1), hiff.mp (List.isEmpty_iff.mp hc.2)⟩
    · rw [if_neg hc]
      refine iff_of_false ?_ ?_
      · rintro ⟨e, he⟩
        exact absurd he (by simp)
      · rintro ⟨h1, h2⟩
        exact hc ⟨List.isEmpty_iff.mpr (hcc_iff.mpr h1), List.isEmpty_iff.mpr (hiff.mpr h2)⟩
  · intro te_dates M hcol hmax hM
    rw [htds] at hcol
    injection hcol with hcol
    subst hcol
    obtain ⟨hMmem, hMub⟩ := int_max?_eq_some_iff.mp hmax
    simp only [AgroManager.end_date, htds]
    have hcnot :
        ¬ ((s.crop_calendars.filterMap (fun o => o.map CropCalendar.get_end_date)).isEmpty = true ∧
            tds.isEmpty = true) := by
      rintro ⟨h1, h2⟩
      rw [List.isEmpty_iff.mp h1, List.isEmpty_iff.mp h2] at hMmem
      simp at hMmem
    rw [if_neg hcnot]
    cases hcc : (s.crop_calendars.filterMap (fun o => o.map CropCalendar.get_end_date)).max? with
    | none =>
        have hccnil := List.max?_eq_none_iff.mp hcc
        cases hte : tds.max? with
        | none =>
            have htenil := List.max?_eq_none_iff.mp hte
            rw [hccnil, htenil] at hMmem
            simp at hMmem
        | some m2 =>
            obtain ⟨hm2mem, hm2ub⟩ := int_max?_eq_some_iff.mp hte
            have h1 : m2 ≤ M := hMub m2 (List.mem_append_right _ hm2mem)
            have h2 : M ≤ m2 := by
              rcases List.mem_append.mp hMmem with h | h
              · rw [hccnil] at h
                simp at h
              · exact hm2ub M h
            congr 1
            dsimp only
            omega
    | some m1 =>
        obtain ⟨hm1mem, hm1ub⟩ := int_max?_eq_some_iff.mp hcc
        have h1 : m1 ≤ M := hMub m1 (List.mem_append_left _ hm1mem)
        cases hte : tds.max? with
        | none =>
            have htenil := List.max?_eq_none_iff.mp hte
            have h2 : M ≤ m1 := by
              rcases List.mem_append.mp hMmem with h | h
              · exact hm1ub M h
              · rw [htenil] at h
                simp at h
            congr 1
            dsimp only
            omega
        | some m2 =>
            obtain ⟨hm2mem, hm2ub⟩ := int_max?_eq_some_iff.mp hte
            have h2 : m2 ≤ M := hMub m2 (List.mem_append_right _ hm2mem)
            have h3 : M ≤ m1 ∨ M ≤ m2 := by
              rcases List.mem_append.mp hMmem with h | h
              · exact Or.inl (hm1ub M h)
              · exact Or.inr (hm2ub M h)
            congr 1
            dsimp only
            omega
  · rfl

/-! Helper lemmas about the AgroManager step. -/

theorem tickCropCalendars_length (cs : List (Option CropCalendar)) (day : Int) :
    (tickCropCalendars cs day).1.length = cs.length := by
  rcases cs with - | ⟨- | cc, rest⟩ <;> simp [tickCropCalendars]

theorem tickStateHead_length (ss : List (Option (List StateEventsDispatcher)))
    (day : Int) (kiosk : String → Option Int) :
    (tickStateHead ss day kiosk).1.length = ss.length := by
  rcases ss with - | ⟨- | seds, rest⟩ <;> simp [tickStateHead]

theorem run_handlers_fields (s : AgroManager) (day : Int) (kiosk : String → Option Int) :
    (s.run_handlers day kiosk).1.campaign_start_dates = s.campaign_start_dates ∧
    (s.run_handlers day kiosk).1.icampaign = s.icampaign ∧
    (s.run_handlers day kiosk).1.crop_calendars.length = s.crop_calendars.length ∧
    (s.run_handlers day kiosk).1.timed_event_dispatchers = s.timed_event_dispatchers ∧
    (s.run_handlers day kiosk).1.state_event_dispatchers.length = s.state_event_dispatchers.length :=
  ⟨rfl, rfl, tickCropCalendars_length s.crop_calendars day, rfl,
    tickStateHead_length s.state_event_dispatchers day kiosk⟩

theorem AgroManager.wf_swap_campaign {s : AgroManager} {n : Nat} (day : Int)
    (h : s.wf n) : (s.swap_campaign day).wf n := by
  unfold AgroManager.swap_campaign
  split
  · rename_i hsw
    obtain ⟨⟨ds, hlen, hds⟩, hic, h1, h2, h3⟩ := h
    have hic2 : s.icampaign + 1 < n := by
      by_contra hge
      push_neg at hge
      have hn : s.icampaign + 1 = n := by omega
      rw [hds] at hsw
      rw [List.getD_append_right] at hsw
      · simp [hlen, hn] at hsw
      · simp [hlen]
        omega
    refine ⟨⟨ds, hlen, hds⟩, by dsimp only; omega, ?_, ?_, ?_⟩ <;>
      (dsimp only; simp only [List.length_drop, h1, h2, h3]; omega)
  · exact h

theorem AgroManager.wf_run_handlers {s : AgroManager} {n : Nat} (day : Int)
    (kiosk : String → Option Int) (h : s.wf n) :
    ((s.run_handlers day kiosk).1).wf n := by
  obtain ⟨hds, hic, h1, h2, h3⟩ := h
  obtain ⟨f1, f2, f3, f4, f5⟩ := run_handlers_fields s day kiosk
  refine ⟨f1 ▸ hds, f2 ▸ hic, ?_, ?_, ?_⟩
  · rw [f3, f2]
    exact h1
  · rw [f4, f2]
    exact h2
  · rw [f5, f2]
    exact h3

theorem AgroManager.wf_call {s : AgroManager} {n : Nat} (day : Int)
    (kiosk : String → Option Int) (h : s.wf n) :
    ((s.call day kiosk).1).wf n :=
  AgroManager.wf_run_handlers day kiosk (AgroManager.wf_swap_campaign day h)

theorem AgroManager.wf_run {s : AgroManager} {n : Nat}
    (kiosk : String → Option Int) (days : List Int) (h : s.wf n) :
    ((s.run kiosk days).1).wf n := by
  induction days generalizing s with
  | nil => exact h
  | cons d ds ih => exact ih (AgroManager.wf_call d kiosk h)

theorem AgroManager.wf_nonempty {s : AgroManager} {n : Nat} (h : s.wf n) :
    s.crop_calendars ≠ [] ∧
    s.timed_event_dispatchers ≠ [] ∧
    s.state_event_dispatchers ≠ [] ∧
    s.icampaign + 1 < s.campaign_start_dates.length := by
  obtain ⟨⟨ds, hlen, hds⟩, hic, h1, h2, h3⟩ := h
  refine ⟨?_, ?_, ?_, ?_⟩
  · intro hnil
    rw [hnil] at h1
    simp at h1
    omega
  · intro hnil
    rw [hnil] at h2
    simp at h2
    omega
  · intro hnil
    rw [hnil] at h3
    simp at h3
    omega
  · rw [hds]
    simp [hlen]
    omega

theorem terminate_not_in_tickCrop (cs : List (Option CropCalendar)) (day : Int) :
    MSig.terminate ∉ (tickCropCalendars cs day).2 := by
  rcases cs with - | ⟨- | cc, rest⟩ <;> simp [tickCropCalendars]

theorem terminate_not_in_te_call (t : TimedEventsDispatcher) (day : Int) :
    MSig.terminate ∉ t.call day := by
  unfold TimedEventsDispatcher.call
  split <;> simp

theorem terminate_not_in_tickTimed (ts : List (Option (List TimedEventsDispatcher)))
    (day : Int) :
    MSig.terminate ∉ tickTimedHead ts day := by
  unfold tickTimedHead
  cases h : ts.headD none with
  | none => simp
  | some teds =>
      intro hmem
      simp only [List.mem_flatten, List.mem_map] at hmem
      rcases hmem with ⟨l, ⟨t, -, rfl⟩, hml⟩
      exact terminate_not_in_te_call t day hml

theorem terminate_not_in_evaluate_state (zc : ZeroCondition) (cur st : Int)
    (pl : Nat) (pz : Option Int) :
    MSig.terminate ∉ (StateEventsDispatcher.evaluate_state zc cur st pl pz).2 := by
  cases zc <;> cases pz <;>
    simp only [StateEventsDispatcher.evaluate_state,
      StateEventsDispatcher.zero_condition_rising,
      StateEventsDispatcher.zero_condition_falling,
      StateEventsDispatcher.zero_condition_either] <;>
    first
      | simp
      | (split <;> simp)

theorem terminate_not_in_se_call (d : StateEventsDispatcher) (day : Int)
    (kiosk : String → Option Int) :
    MSig.terminate ∉ (d.call day kiosk).2 := by
  unfold StateEventsDispatcher.call
  cases h : kiosk d.event_state with
  | none => simp
  | some cur =>
      intro hmem
      simp only [List.mem_flatten, List.mem_map] at hmem
      rcases hmem with ⟨l, ⟨r, ⟨ep, -, rfl⟩, rfl⟩, hml⟩
      exact terminate_not_in_evaluate_state d.zero_condition cur ep.1.1 ep.1.2 ep.2 hml

theorem terminate_not_in_tickState (ss : List (Option (List StateEventsDispatcher)))
    (day : Int) (kiosk : String → Option Int) :
    MSig.terminate ∉ (tickStateHead ss day kiosk).2 := by
  rcases ss with - | ⟨- | seds, rest⟩
  · simp [tickStateHead]
  · simp [tickStateHead]
  · intro hmem
    simp only [tickStateHead, List.mem_flatten, List.mem_map] at hmem
    rcases hmem with ⟨l, ⟨r, ⟨d, -, rfl⟩, rfl⟩, hml⟩
    exact terminate_not_in_se_call d day kiosk hml

theorem terminate_not_in_call (s : AgroManager) (day : Int)
    (kiosk : String → Option Int) :
    MSig.terminate ∉ (s.call day kiosk).2 := by
  unfold AgroManager.call AgroManager.run_handlers
  intro hmem
  simp only [List.mem_append] at hmem
  rcases hmem with (h | h) | h
  · exact terminate_not_in_tickCrop _ day h
  · exact terminate_not_in_tickTimed _ day h
  · exact terminate_not_in_tickState _ day kiosk h

theorem terminate_not_in_run (s : AgroManager) (kiosk : String → Option Int)
    (days : List Int) :
    MSig.terminate ∉ (s.run kiosk days).2 := by
  induction days generalizing s with
  | nil => simp [AgroManager.run]
  | cons d ds ih =>
      intro hmem
      simp only [AgroManager.run, List.mem_append] at hmem
      rcases hmem with h | h
      · exact terminate_not_in_call s d kiosk h
      · exact ih _ h

/-- C2 (code evidence): from any well-formed scheduler state, the bundle
queue never becomes empty (the sentinel stops the cursor at the last
campaign), so the `_on_CROP_FINISH` handler would emit nothing even if it
were invoked, and no advance ever emits signals.terminate. -/
theorem C2_terminate_never_emitted (n : Nat) (s : AgroManager)
    (kiosk : String → Option Int) (days : List Int) (h : s.wf n) :
    (s.run kiosk days).1.crop_calendars ≠ [] ∧
    AgroManager.on_CROP_FINISH ((s.run kiosk days).1) = [] ∧
    MSig.terminate ∉ (s.run kiosk days).2 := by
  have hwf := AgroManager.wf_run kiosk days h
  have hne := (AgroManager.wf_nonempty hwf).1
  refine ⟨hne, ?_, terminate_not_in_run s kiosk days⟩
  unfold AgroManager.on_CROP_FINISH
  rw [if_neg hne]

/-- Witness for C2: on the two-campaign example, after ticking through both
campaign start days the queue is nonempty and the handler emits nothing. -/
theorem C2_witness :
    AgroManager.on_CROP_FINISH ((exampleAgro.run (fun _ => none) [730545, 730851]).1) = [] :=
  (C2_terminate_never_emitted 2 exampleAgro (fun _ => none) [730545, 730851]
    ⟨⟨[730545, 730851], rfl, rfl⟩, by decide, rfl, rfl, rfl⟩).2.1

/-- C8: when advance runs on the upcoming campaign's start date, the cursor
moves and the front bundles are popped before any handler runs: the result
is independent of the retired front bundle's contents, the handlers are
applied to the bundle that was at queue position 1, and every signal of the
tick comes from that new bundle. -/
theorem C8_bundle_swap_atomic (s : AgroManager) (day : Int)
    (kiosk : String → Option Int)
    (hday : s.campaign_start_dates.getD (s.icampaign + 1) none = some day) :
    (s.call day kiosk).1.icampaign = s.icampaign + 1 ∧
    (∀ b1 b2 b3,
      AgroManager.call
        { s with
            crop_calendars := b1 :: s.crop_calendars.drop 1
            timed_event_dispatchers := b2 :: s.timed_event_dispatchers.drop 1
            state_event_dispatchers := b3 :: s.state_event_dispatchers.drop 1 }
        day kiosk = s.call day kiosk) ∧
    (s.call day kiosk).1.crop_calendars = (tickCropCalendars (s.crop_calendars.drop 1) day).1 ∧
    (s.call day kiosk).2 =
      (tickCropCalendars (s.crop_calendars.drop 1) day).2 ++
        tickTimedHead (s.timed_event_dispatchers.drop 1) day ++
        (tickStateHead (s.state_event_dispatchers.drop 1) day kiosk).2 := by
  have hswap : s.swap_campaign day =
      { s with
          icampaign := s.icampaign + 1
          crop_calendars := s.crop_calendars.drop 1
          timed_event_dispatchers := s.timed_event_dispatchers.drop 1
          state_event_dispatchers := s.state_event_dispatchers.drop 1 } := by
    unfold AgroManager.swap_campaign
    rw [if_pos hday]
  refine ⟨?_, ?_, ?_, ?_⟩
  · simp [AgroManager.call, hswap, AgroManager.run_handlers]
  · intro b1 b2 b3
    unfold AgroManager.call AgroManager.swap_campaign
    dsimp only
    simp only [if_pos hday]
    simp [List.drop_succ_cons]
  · simp [AgroManager.call, hswap, AgroManager.run_handlers]
  · simp [AgroManager.call, hswap, AgroManager.run_handlers]

/-- Witness for C8: on the example manager the tick at the second campaign
start day 2002-01-01 advances the cursor to campaign 1. -/
theorem C8_witness :
    (exampleAgro.call 730851 (fun _ => none)).1.icampaign = exampleAgro.icampaign + 1 :=
  (C8_bundle_swap_atomic exampleAgro 730851 (fun _ => none) rfl).1

/-- C10: a scheduler initialized from a nonempty campaign definition list
is well formed, and well-formedness is preserved by every run: the three
bundle queues are never empty, the cursor access `campaign_start_dates[_icampaign+1]`
stays in bounds (the trailing None sentinel never matches a date, so the
cursor advances at most N-1 times). -/
theorem C10_queues_never_empty :
    (∀ (defs : List CampaignDef) (s0 : AgroManager),
      defs ≠ [] → AgroManager.initializeDefs defs = Except.ok s0 → s0.wf defs.length) ∧
    (∀ (n : Nat) (s : AgroManager) (kiosk : String → Option Int) (days : List Int),
      s.wf n →
      ((s.run kiosk days).1.wf n ∧
        (s.run kiosk days).1.crop_calendars ≠ [] ∧
        (s.run kiosk days).1.timed_event_dispatchers ≠ [] ∧
        (s.run kiosk days).1.state_event_dispatchers ≠ [] ∧
        (s.run kiosk days).1.icampaign + 1 < (s.run kiosk days).1.campaign_start_dates.length ∧
        (s.run kiosk days).1.icampaign ≤ n - 1)) := by
  constructor
  · intro defs s0 hne hinit
    unfold AgroManager.initializeDefs at hinit
    split at hinit
    · exact absurd hinit (by simp)
    · injection hinit with h
      subst h
      refine ⟨⟨defs.map (fun d => d.campaign_start), by simp, ?_⟩, ?_, by simp, by simp, by simp⟩
      · dsimp only
        simp [List.map_map, Function.comp]
      · dsimp only
        exact List.length_pos.mpr hne
  · intro n s kiosk days hwf
    have h2 := AgroManager.wf_run kiosk days hwf
    obtain ⟨a, b, c, d⟩ := AgroManager.wf_nonempty h2
    refine ⟨h2, a, b, c, d, ?_⟩
    rcases h2 with ⟨-, hic, -⟩
    omega

/-- Witness for C10: running the example manager across its own campaign
boundary leaves the crop-calendar queue nonempty. -/
theorem C10_witness :
    (exampleAgro.run (fun _ => none) [730545, 730851]).1.crop_calendars ≠ [] :=
  (C10_queues_never_empty.2 2 exampleAgro (fun _ => none) [730545, 730851]
    ⟨⟨[730545, 730851], rfl, rfl⟩, by decide, rfl, rfl, rfl⟩).2.1

/-- Witness for C4: instantiating the end-date characterization at the
spec example yields end_date 730695, that is 2001-03-01 + 150 days. -/
theorem C4_witness :
    exampleAgro.end_date = Except.ok 730695 :=
  (C4_end_date_is_max_of_contributions exampleAgro (by simp [exampleAgro])).2.1 [] 730695
    rfl rfl (by norm_num)
